import Mathlib

/-!
# Shallow embedding of the ZKNON coupon engine (`src/server.js` + bundled `db.js`)

Amounts are JavaScript numbers in the source; we embed them as exact
rationals (`ℚ`).  The file-backed store (`db.js`) is embedded as a pure
`Store` value threaded through each operation; a JS exception thrown from
an updater callback is embedded as `Except.error`, and an exception that
escapes an Express route handler (and hence reaches Express's default
error handler, producing a 500 response) is embedded as
`Response.uncaught`.
-/

namespace Zknon

/-- Default of env var POOL_ADDRESS in `server.js`. -/
def POOL_ADDRESS : String := "8hGDXBJqpCZvWaDcbvXykRSb1bKbbJ5Ji4c85ubYvkaA"

/-- A coupon record, as built by the `POST /coupons` handler. -/
structure Coupon where
  id : String
  label : String
  owner_wallet : String
  initial_amount_sol : ℚ
  remaining_amount_sol : ℚ
  expires_at : Option String
  pool_address : String
  created_at : String
  deriving DecidableEq, Repr

/-- Event types written by the four mutating handlers. -/
inductive EventType
  | create
  | deposit
  | withdraw
  | pay
  deriving DecidableEq, Repr

/-- An event record, as built by the mutating handlers.  The
`settlement_reference` field is absent (undefined) on every event the
`src/` variant writes; it is populated only by the spec-modelled on-chain
withdrawal path (§4.3 of the spec). -/
structure Event where
  coupon_id : String
  owner_wallet : String
  type : EventType
  amount_sol : ℚ
  to_address : String
  note : Option String
  settlement_reference : Option String
  created_at : String
  deriving DecidableEq, Repr

/-- The two collections persisted by `db.js` (`coupons.json`, `events.json`). -/
structure Store where
  coupons : List Coupon
  events : List Event
  deriving DecidableEq, Repr

def emptyStore : Store := ⟨[], []⟩

/-- Does a coupon match the `(id, owner_wallet)` key used by
`db.updateCoupon` / `db.getCouponById`? -/
def couponKeyMatch (couponId ownerWallet : String) (c : Coupon) : Bool :=
  c.id == couponId && c.owner_wallet == ownerWallet

/-- `db.createCoupon`: push onto the coupons collection and save. -/
def createCoupon (st : Store) (c : Coupon) : Store :=
  { st with coupons := st.coupons ++ [c] }

/-- `db.addEvent`: push onto the events collection and save. -/
def addEvent (st : Store) (e : Event) : Store :=
  { st with events := st.events ++ [e] }

/-- `db.getCouponById`: `find` over the coupons collection — the FIRST
coupon matching `(id, owner_wallet)`. -/
def getCouponById (st : Store) (couponId ownerWallet : String) : Option Coupon :=
  st.coupons.find? (couponKeyMatch couponId ownerWallet)

/-- `db.getCouponsByOwner`: all coupons with the given owner. -/
def getCouponsByOwner (st : Store) (ownerWallet : String) : List Coupon :=
  st.coupons.filter (fun c => c.owner_wallet == ownerWallet)

/-- `db.getEventsForCoupon`: all events with the given `(coupon_id, owner_wallet)`. -/
def getEventsForCoupon (st : Store) (couponId ownerWallet : String) : List Event :=
  st.events.filter (fun e => e.coupon_id == couponId && e.owner_wallet == ownerWallet)

/-- Core of `db.updateCoupon`: `findIndex` + replace at the first matching
index, written as structural recursion.  `none` embeds the `index === -1`
path (returns `null`, nothing saved).  The updater may throw (the withdraw
and pay handlers throw `"insufficient balance"` inside it); the throw
happens before `coupons[index] = updated` and before `saveCoupons`, so the
collection is left unmodified and the exception propagates — embedded as
`Except.error`. -/
def updateCouponList (couponId ownerWallet : String)
    (updater : Coupon → Except String Coupon) :
    List Coupon → Option (Except String (Coupon × List Coupon))
  | [] => none
  | c :: rest =>
    if couponKeyMatch couponId ownerWallet c then
      some (match updater c with
        | .error msg => .error msg
        | .ok c' => .ok (c', c' :: rest))
    else
      match updateCouponList couponId ownerWallet updater rest with
      | none => none
      | some (.error msg) => some (.error msg)
      | some (.ok (c', rest')) => some (.ok (c', c :: rest'))

/-- `db.updateCoupon` over a `Store`.  Outer `Except` = an exception
thrown by the updater propagating out of `db.updateCoupon` (no save);
`Option` = the `null` not-found return. -/
def updateCoupon (st : Store) (couponId ownerWallet : String)
    (updater : Coupon → Except String Coupon) :
    Except String (Option (Coupon × Store)) :=
  match updateCouponList couponId ownerWallet updater st.coupons with
  | none => .ok none
  | some (.error msg) => .error msg
  | some (.ok (c', cs)) => .ok (some (c', { st with coupons := cs }))

/-- `parseAmountSol`: `Number(value)` then reject non-finite or `<= 0`.
`none` on the input side embeds a body value whose `Number(...)` is `NaN`
or infinite (missing field, non-numeric string, …); a `some q` input is a
finite numeric value. -/
def parseAmountSol (value : Option ℚ) : Option ℚ :=
  match value with
  | none => none
  | some n => if n ≤ 0 then none else some n

/-- JS `String.prototype.trim`: strip leading and trailing whitespace,
written over the character list so it reduces by computation. -/
def jsTrim (s : String) : String :=
  String.mk (((s.data.dropWhile Char.isWhitespace).reverse.dropWhile
    Char.isWhitespace).reverse)

/-- JS `expiry || null`: a missing or empty-string expiry becomes `null`. -/
def jsOrNull (v : Option String) : Option String :=
  match v with
  | none => none
  | some s => if s = "" then none else some s

/-- An HTTP response body, by shape.  `errorMsg m` is `{ error: m }`;
`couponOnly` is `{ coupon }` (the create handler's 201 body);
`couponEvent` is `{ coupon, event }`; `history` is `{ coupon, events }`. -/
inductive RespBody
  | errorMsg (error : String)
  | couponOnly (coupon : Coupon)
  | couponEvent (coupon : Coupon) (event : Event)
  | history (coupon : Coupon) (events : List Event)
  deriving DecidableEq, Repr

/-- An HTTP response.  `json s b` is an explicit `res.status(s).json(b)`
(or `res.json(b)` with the default 200).  `uncaught m` is a synchronous
exception escaping the route handler: the only error middleware in
`server.js` is registered before the routes, so the exception reaches
Express's default error handler, which answers 500 with no
machine-readable JSON error code. -/
inductive Response
  | json (status : Nat) (body : RespBody)
  | uncaught (msg : String)
  deriving DecidableEq, Repr

/-- Is the response an error (4xx/5xx JSON, or an uncaught exception)? -/
def Response.isError : Response → Bool
  | .json s _ => 400 ≤ s
  | .uncaught _ => true

/-- `POST /coupons` handler.  `genId` is the value returned by
`generateCouponId()` and `createdAt` the value of `nowIso()` — both
nondeterministic inputs of the embedding. -/
def postCoupons (st : Store) (wallet label : String) (amount_sol : Option ℚ)
    (expiry : Option String) (genId createdAt : String) : Response × Store :=
  let ownerWallet := jsTrim wallet
  let couponLabel := jsTrim label
  if ownerWallet = "" then (.json 400 (.errorMsg "wallet is required"), st)
  else if couponLabel = "" then (.json 400 (.errorMsg "label is required"), st)
  else
    match parseAmountSol amount_sol with
    | none => (.json 400 (.errorMsg "amount_sol must be a positive number"), st)
    | some amount =>
      let coupon : Coupon :=
        { id := genId
          label := couponLabel
          owner_wallet := ownerWallet
          initial_amount_sol := amount
          remaining_amount_sol := amount
          expires_at := jsOrNull expiry
          pool_address := POOL_ADDRESS
          created_at := createdAt }
      let st1 := createCoupon st coupon
      let ev : Event :=
        { coupon_id := genId
          owner_wallet := ownerWallet
          type := .create
          amount_sol := amount
          to_address := ownerWallet
          note := none
          settlement_reference := none
          created_at := createdAt }
      let st2 := addEvent st1 ev
      (.json 201 (.couponOnly coupon), st2)

/-- `POST /coupons/:id/deposit` handler.  The updater reads
`Number(coupon.remaining_amount_sol || 0)`; in the embedding the field is
always a rational, and `x || 0` equals `x` for every number except that it
maps `0` to `0`, so it is the identity here. -/
def postDeposit (st : Store) (couponId wallet : String) (amount_sol : Option ℚ)
    (createdAt : String) : Response × Store :=
  let ownerWallet := jsTrim wallet
  if ownerWallet = "" then (.json 400 (.errorMsg "wallet is required"), st)
  else
    match parseAmountSol amount_sol with
    | none => (.json 400 (.errorMsg "amount_sol must be a positive number"), st)
    | some amount =>
      match updateCoupon st couponId ownerWallet
          (fun c => .ok { c with remaining_amount_sol := c.remaining_amount_sol + amount }) with
      | .error msg => (.uncaught msg, st)
      | .ok none => (.json 404 (.errorMsg "coupon not found for this wallet"), st)
      | .ok (some (updated, st1)) =>
        let ev : Event :=
          { coupon_id := couponId
            owner_wallet := ownerWallet
            type := .deposit
            amount_sol := amount
            to_address := ownerWallet
            note := none
            settlement_reference := none
            created_at := createdAt }
        let st2 := addEvent st1 ev
        (.json 200 (.couponEvent updated ev), st2)

/-- `POST /coupons/:id/withdraw` handler.  On insufficient balance the
updater throws; `db.updateCoupon` does not catch, so the exception escapes
the handler (`Response.uncaught`): the `updated instanceof Error` check in
the source is dead code and the 400 branch below it never runs. -/
def postWithdraw (st : Store) (couponId wallet : String) (amount_sol : Option ℚ)
    (recipient : String) (createdAt : String) : Response × Store :=
  let ownerWallet := jsTrim wallet
  let toAddress := jsTrim recipient
  if ownerWallet = "" then (.json 400 (.errorMsg "wallet is required"), st)
  else if toAddress = "" then (.json 400 (.errorMsg "recipient is required"), st)
  else
    match parseAmountSol amount_sol with
    | none => (.json 400 (.errorMsg "amount_sol must be a positive number"), st)
    | some amount =>
      match updateCoupon st couponId ownerWallet
          (fun c =>
            if amount > c.remaining_amount_sol then .error "insufficient balance"
            else .ok { c with remaining_amount_sol := c.remaining_amount_sol - amount }) with
      | .error msg => (.uncaught msg, st)
      | .ok none => (.json 404 (.errorMsg "coupon not found for this wallet"), st)
      | .ok (some (updated, st1)) =>
        let ev : Event :=
          { coupon_id := couponId
            owner_wallet := ownerWallet
            type := .withdraw
            amount_sol := amount
            to_address := toAddress
            note := none
            settlement_reference := none
            created_at := createdAt }
        let st2 := addEvent st1 ev
        (.json 200 (.couponEvent updated ev), st2)

/-- `POST /pay` handler.  Same updater shape as withdraw; here the source
has no `instanceof Error` check at all, so an insufficient-balance throw
likewise escapes the handler. -/
def postPay (st : Store) (wallet couponIdRaw : String) (amount_sol : Option ℚ)
    (merchant : String) (note : Option String) (createdAt : String) : Response × Store :=
  let ownerWallet := jsTrim wallet
  let couponId := jsTrim couponIdRaw
  let merchantWallet := jsTrim merchant
  if ownerWallet = "" then (.json 400 (.errorMsg "wallet is required"), st)
  else if couponId = "" then (.json 400 (.errorMsg "coupon_id is required"), st)
  else if merchantWallet = "" then (.json 400 (.errorMsg "merchant is required"), st)
  else
    match parseAmountSol amount_sol with
    | none => (.json 400 (.errorMsg "amount_sol must be a positive number"), st)
    | some amount =>
      match updateCoupon st couponId ownerWallet
          (fun c =>
            if amount > c.remaining_amount_sol then .error "insufficient balance"
            else .ok { c with remaining_amount_sol := c.remaining_amount_sol - amount }) with
      | .error msg => (.uncaught msg, st)
      | .ok none => (.json 404 (.errorMsg "coupon not found for this wallet"), st)
      | .ok (some (updated, st1)) =>
        let ev : Event :=
          { coupon_id := couponId
            owner_wallet := ownerWallet
            type := .pay
            amount_sol := amount
            to_address := merchantWallet
            note := jsOrNull note
            settlement_reference := none
            created_at := createdAt }
        let st2 := addEvent st1 ev
        (.json 200 (.couponEvent updated ev), st2)

/-- `GET /coupons/:id/history` handler (read-only). -/
def getHistory (st : Store) (couponId wallet : String) : Response :=
  let w := jsTrim wallet
  if w = "" then .json 400 (.errorMsg "wallet query param is required")
  else
    match getCouponById st couponId w with
    | none => .json 404 (.errorMsg "coupon not found for this wallet")
    | some coupon => .json 200 (.history coupon (getEventsForCoupon st couponId w))

/-- The fallback handler at the bottom of `server.js`: any request whose
method/path matches no registered route — including
`POST /coupons/:id/withdraw-onchain`, for which `server.js` registers no
route — gets this 404 and touches no state. -/
def fallback404 : Response := .json 404 (.errorMsg "Not found")

/-- One mutating ledger request, carrying the nondeterministic inputs
(generated id, timestamps) explicitly. -/
inductive Op
  | create (wallet label : String) (amount_sol : Option ℚ) (expiry : Option String)
      (genId createdAt : String)
  | deposit (couponId wallet : String) (amount_sol : Option ℚ) (createdAt : String)
  | withdraw (couponId wallet : String) (amount_sol : Option ℚ) (recipient : String)
      (createdAt : String)
  | pay (wallet couponId : String) (amount_sol : Option ℚ) (merchant : String)
      (note : Option String) (createdAt : String)
  deriving DecidableEq, Repr

/-- Dispatch one request to its handler. -/
def execOp (st : Store) : Op → Response × Store
  | .create wallet label amount_sol expiry genId createdAt =>
      postCoupons st wallet label amount_sol expiry genId createdAt
  | .deposit couponId wallet amount_sol createdAt =>
      postDeposit st couponId wallet amount_sol createdAt
  | .withdraw couponId wallet amount_sol recipient createdAt =>
      postWithdraw st couponId wallet amount_sol recipient createdAt
  | .pay wallet couponId amount_sol merchant note createdAt =>
      postPay st wallet couponId amount_sol merchant note createdAt

/-- Run a sequence of requests, keeping only the store. -/
def execOps (st : Store) : List Op → Store
  | [] => st
  | op :: ops => execOps (execOp st op).2 ops

/-! ## Spec-modelled on-chain withdrawal (§4.3)

The spec (§2) says the repository holds two near-duplicate server
variants, one with real settlement integration; only the variant without
it is under `src/`.  The `POST /coupons/:id/withdraw-onchain` route and
the Withdrawal Reconciler therefore have to be modelled from the spec. -/

/-- Outcome of the Settlement Gateway's transfer call, as seen by the
Withdrawal Reconciler: a confirmed settlement reference, a definite
rejection before any transfer was recorded, or an ambiguous outcome
(confirmation timed out mid-call). -/
inductive SettlementOutcome
  | confirmed (ref : String)
  | rejected
  | timeout
  deriving DecidableEq, Repr

/-- Result surfaced by the on-chain withdrawal protocol. -/
inductive OnchainResult
  | validationError (msg : String)
  | notFound
  | insufficientBalance
  | committed (coupon : Coupon) (event : Event)
  | released
  | settlementAmbiguous
  deriving DecidableEq, Repr

/-- Modelled from the spec: the `POST /coupons/:id/withdraw-onchain`
handler and the Withdrawal Reconciler state machine of §4.3, which live in
the settlement-enabled server variant absent from `src/`.  Requested:
validate inputs and look up the coupon by `(id, owner)`, failing
`NotFound`/`InvalidAmount`/`InsufficientBalance` without mutating state.
BalanceReserved: re-check the balance without committing the decrement.
SettlementSubmitted: call the gateway (its outcome is the `outcome`
input).  On a confirmed reference, atomically decrement and append the
`withdraw` event carrying the settlement reference (Committed).  On
definite rejection, Released: no balance change, no event.  On ambiguous
outcome, PendingReview: the balance is not decremented, no event is
written, and the operation surfaces `SettlementAmbiguous`. -/
def postWithdrawOnchain (st : Store) (couponId wallet : String) (amount_sol : Option ℚ)
    (recipient : String) (outcome : SettlementOutcome) (createdAt : String) :
    OnchainResult × Store :=
  let ownerWallet := jsTrim wallet
  let toAddress := jsTrim recipient
  if ownerWallet = "" then (.validationError "wallet is required", st)
  else if toAddress = "" then (.validationError "recipient is required", st)
  else
    match parseAmountSol amount_sol with
    | none => (.validationError "amount_sol must be a positive number", st)
    | some amount =>
      match getCouponById st couponId ownerWallet with
      | none => (.notFound, st)
      | some c =>
        if amount > c.remaining_amount_sol then (.insufficientBalance, st)
        else
          match outcome with
          | .timeout => (.settlementAmbiguous, st)
          | .rejected => (.released, st)
          | .confirmed ref =>
            let updated := { c with remaining_amount_sol := c.remaining_amount_sol - amount }
            let ev : Event :=
              { coupon_id := couponId
                owner_wallet := ownerWallet
                type := .withdraw
                amount_sol := amount
                to_address := toAddress
                note := none
                settlement_reference := some ref
                created_at := createdAt }
            match updateCoupon st couponId ownerWallet (fun _ => .ok updated) with
            | .error msg => (.validationError msg, st)
            | .ok none => (.notFound, st)
            | .ok (some (c', st1)) => (.committed c' ev, addEvent st1 ev)

/-! ## Derived notions used by the claims -/

/-- The signed contribution of one event: create and deposit positive,
withdraw and pay negative. -/
def signedAmount (e : Event) : ℚ :=
  match e.type with
  | .create => e.amount_sol
  | .deposit => e.amount_sol
  | .withdraw => -e.amount_sol
  | .pay => -e.amount_sol

/-- Signed sum of a list of events. -/
def signedSum (es : List Event) : ℚ := (es.map signedAmount).sum

/-- Does the generated id of every (attempted) create in the sequence
avoid every coupon id already in the store when it runs?  This is the
uniqueness the spec assumes of `generateCouponId` (its 4 random bytes make
a repeat improbable but not impossible, and `createCoupon` never checks). -/
def opFresh (st : Store) : Op → Bool
  | .create _ _ _ _ genId _ => st.coupons.all (fun c => c.id != genId)
  | _ => true

def freshIds (st : Store) : List Op → Bool
  | [] => true
  | op :: ops => opFresh st op && freshIds (execOp st op).2 ops

/-- No two coupons in the list share an id. -/
def idsUnique (cs : List Coupon) : Prop :=
  cs.Pairwise (fun a b => a.id ≠ b.id)

/-- Every event's `(coupon_id, owner_wallet)` key belongs to some coupon
in the store. -/
def eventsHaveCoupons (st : Store) : Prop :=
  ∀ e ∈ st.events, ∃ c ∈ st.coupons, c.id = e.coupon_id ∧ c.owner_wallet = e.owner_wallet

/-- Every coupon's balance equals the signed sum of its events. -/
def balanced (st : Store) : Prop :=
  ∀ c ∈ st.coupons,
    c.remaining_amount_sol = signedSum (getEventsForCoupon st c.id c.owner_wallet)

/-- The ledger invariant maintained (under fresh ids) by every operation. -/
def Inv (st : Store) : Prop :=
  idsUnique st.coupons ∧ eventsHaveCoupons st ∧ balanced st

/-- Does a response body carry an event? -/
def RespBody.hasEvent : RespBody → Bool
  | .couponEvent _ _ => true
  | _ => false

/-- Does a response carry an event in its body? -/
def Response.bodyHasEvent : Response → Bool
  | .json _ b => b.hasEvent
  | .uncaught _ => false

/-- Is the request a create? -/
def Op.isCreate : Op → Bool
  | .create _ _ _ _ _ _ => true
  | _ => false

/-- The event type a request writes on success. -/
def Op.eventType : Op → EventType
  | .create _ _ _ _ _ _ => .create
  | .deposit _ _ _ _ => .deposit
  | .withdraw _ _ _ _ _ => .withdraw
  | .pay _ _ _ _ _ _ => .pay

/-- A store holding one coupon: the result of creating a coupon of
amount 5 for wallet W1. -/
def oneCouponStore : Store :=
  execOps emptyStore [.create "W1" "gift" (some 5) none "CPN-AAAA-0001" "t1"]

/-- The coupon in `oneCouponStore`. -/
def oneCoupon : Coupon :=
  { id := "CPN-AAAA-0001"
    label := "gift"
    owner_wallet := "W1"
    initial_amount_sol := 5
    remaining_amount_sol := 5
    expires_at := none
    pool_address := POOL_ADDRESS
    created_at := "t1" }

/-- The spec's §8 scenario: create 5, deposit 3, withdraw 4 to R. -/
def scenarioOps : List Op :=
  [ .create "W1" "gift" (some 5) none "CPN-AAAA-0001" "t1",
    .deposit "CPN-AAAA-0001" "W1" (some 3) "t2",
    .withdraw "CPN-AAAA-0001" "W1" (some 4) "R" "t3" ]

/-- The coupon after running `scenarioOps`. -/
def scenarioCoupon : Coupon :=
  { id := "CPN-AAAA-0001"
    label := "gift"
    owner_wallet := "W1"
    initial_amount_sol := 5
    remaining_amount_sol := 4
    expires_at := none
    pool_address := POOL_ADDRESS
    created_at := "t1" }

/-- Two creates for the SAME owner in which `generateCouponId` returned
the same id twice (possible: it is 4 random bytes, and `createCoupon`
never checks the collection). -/
def dupIdOps : List Op :=
  [ .create "W1" "a" (some 5) none "CPN-AAAA-0001" "t1",
    .create "W1" "b" (some 3) none "CPN-AAAA-0001" "t2" ]

def dupIdStore : Store := execOps emptyStore dupIdOps

/-- Two creates for DIFFERENT owners in which `generateCouponId` returned
the same id twice. -/
def crossOwnerOps : List Op :=
  [ .create "W1" "a" (some 5) none "CPN-AAAA-0001" "t1",
    .create "W2" "b" (some 3) none "CPN-AAAA-0001" "t2" ]

def crossOwnerStore : Store := execOps emptyStore crossOwnerOps

/-- The second owner's coupon in `crossOwnerStore`. -/
def crossOwnerCouponW2 : Coupon :=
  { id := "CPN-AAAA-0001"
    label := "b"
    owner_wallet := "W2"
    initial_amount_sol := 3
    remaining_amount_sol := 3
    expires_at := none
    pool_address := POOL_ADDRESS
    created_at := "t2" }

/-- The create event of the second owner's coupon in `crossOwnerStore`. -/
def crossOwnerEventW2 : Event :=
  { coupon_id := "CPN-AAAA-0001"
    owner_wallet := "W2"
    type := .create
    amount_sol := 3
    to_address := "W2"
    note := none
    settlement_reference := none
    created_at := "t2" }

/-- Two distinct coupons sharing the `(id, owner_wallet)` key, for the
duplicate-key behavior of the db layer. -/
def dupKeyCouponA : Coupon :=
  { id := "CPN-DUP-0001"
    label := "first"
    owner_wallet := "W9"
    initial_amount_sol := 5
    remaining_amount_sol := 5
    expires_at := none
    pool_address := POOL_ADDRESS
    created_at := "t1" }

def dupKeyCouponB : Coupon :=
  { id := "CPN-DUP-0001"
    label := "second"
    owner_wallet := "W9"
    initial_amount_sol := 3
    remaining_amount_sol := 3
    expires_at := none
    pool_address := POOL_ADDRESS
    created_at := "t2" }

def dupKeyStore : Store := ⟨[dupKeyCouponA, dupKeyCouponB], []⟩

/-- All balances in the store are nonnegative. -/
def nonnegStore (st : Store) : Prop :=
  ∀ c ∈ st.coupons, 0 ≤ c.remaining_amount_sol

/-! ## Structural lemmas -/

theorem couponKeyMatch_iff {couponId ownerWallet : String} {c : Coupon} :
    couponKeyMatch couponId ownerWallet c = true ↔
      c.id = couponId ∧ c.owner_wallet = ownerWallet := by
  simp [couponKeyMatch]

theorem couponKeyMatch_false {couponId ownerWallet : String} {c : Coupon} :
    couponKeyMatch couponId ownerWallet c = false ↔
      ¬(c.id = couponId ∧ c.owner_wallet = ownerWallet) := by
  rw [← couponKeyMatch_iff]
  simp

theorem parseAmountSol_pos {v : Option ℚ} {a : ℚ} (h : parseAmountSol v = some a) :
    0 < a := by
  cases v with
  | none => simp [parseAmountSol] at h
  | some n =>
    rw [parseAmountSol] at h
    split at h
    · simp at h
    · rename_i hn
      cases h
      exact lt_of_not_ge hn

/-- Characterization of a successful `db.updateCoupon` at the list level:
the list splits at the first `(id, owner)` match, which alone is replaced
by the updater's result. -/
theorem updateCouponList_ok_spec {couponId ownerWallet : String}
    {f : Coupon → Except String Coupon} :
    ∀ {l : List Coupon} {c' : Coupon} {cs' : List Coupon},
      updateCouponList couponId ownerWallet f l = some (.ok (c', cs')) →
      ∃ pre c post, l = pre ++ c :: post ∧ cs' = pre ++ c' :: post ∧
        (∀ x ∈ pre, couponKeyMatch couponId ownerWallet x = false) ∧
        couponKeyMatch couponId ownerWallet c = true ∧ f c = .ok c' := by
  intro l
  induction l with
  | nil => intro c' cs' h; simp [updateCouponList] at h
  | cons a rest ih =>
    intro c' cs' h
    by_cases hm : couponKeyMatch couponId ownerWallet a = true
    · rw [updateCouponList, if_pos hm] at h
      cases hf : f a with
      | error msg => rw [hf] at h; simp at h
      | ok b =>
        rw [hf] at h
        simp only [Option.some.injEq, Except.ok.injEq, Prod.mk.injEq] at h
        obtain ⟨hb, hcs⟩ := h
        refine ⟨[], a, rest, by simp, ?_, by simp, hm, ?_⟩
        · simp [← hcs, hb]
        · rw [hf, hb]
    · rw [updateCouponList, if_neg hm] at h
      cases hrec : updateCouponList couponId ownerWallet f rest with
      | none => rw [hrec] at h; simp at h
      | some r =>
        cases r with
        | error msg => rw [hrec] at h; simp at h
        | ok p =>
          obtain ⟨b, rest'⟩ := p
          rw [hrec] at h
          simp only [Option.some.injEq, Except.ok.injEq, Prod.mk.injEq] at h
          obtain ⟨hb, hcs⟩ := h
          obtain ⟨pre, c, post, hl, hcs', hpre, hc, hfc⟩ := ih hrec
          refine ⟨a :: pre, c, post, by simp [hl], by simp [← hcs, hcs', hb], ?_, hc, ?_⟩
          · intro x hx
            rcases List.mem_cons.mp hx with hxa | hxp
            · subst hxa; exact Bool.eq_false_iff.mpr (fun hh => hm hh)
            · exact hpre x hxp
          · rw [hfc, hb]

/-- Characterization of a successful `db.updateCoupon` at the store
level. -/
theorem updateCoupon_ok_spec {st : Store} {couponId ownerWallet : String}
    {f : Coupon → Except String Coupon} {c' : Coupon} {st' : Store}
    (h : updateCoupon st couponId ownerWallet f = .ok (some (c', st'))) :
    ∃ pre c post, st.coupons = pre ++ c :: post ∧
      st' = { st with coupons := pre ++ c' :: post } ∧
      (∀ x ∈ pre, couponKeyMatch couponId ownerWallet x = false) ∧
      couponKeyMatch couponId ownerWallet c = true ∧ f c = .ok c' := by
  rw [updateCoupon] at h
  cases hrec : updateCouponList couponId ownerWallet f st.coupons with
  | none => rw [hrec] at h; simp at h
  | some r =>
    cases r with
    | error msg => rw [hrec] at h; simp at h
    | ok p =>
      obtain ⟨b, cs'⟩ := p
      rw [hrec] at h
      simp only [Except.ok.injEq, Option.some.injEq, Prod.mk.injEq] at h
      obtain ⟨hb, hst⟩ := h
      obtain ⟨pre, c, post, hl, hcs', hpre, hc, hfc⟩ := updateCouponList_ok_spec hrec
      subst hb
      exact ⟨pre, c, post, hl, by rw [← hst, hcs'], hpre, hc, hfc⟩

theorem getEventsForCoupon_coupons_irrel (st : Store) (cs : List Coupon)
    (couponId ownerWallet : String) :
    getEventsForCoupon { st with coupons := cs } couponId ownerWallet =
      getEventsForCoupon st couponId ownerWallet := rfl

theorem getEventsForCoupon_addEvent (st : Store) (e : Event)
    (couponId ownerWallet : String) :
    getEventsForCoupon (addEvent st e) couponId ownerWallet =
      getEventsForCoupon st couponId ownerWallet ++
        (if e.coupon_id = couponId ∧ e.owner_wallet = ownerWallet then [e] else []) := by
  simp only [getEventsForCoupon, addEvent, List.filter_append]
  congr 1
  by_cases h : e.coupon_id = couponId ∧ e.owner_wallet = ownerWallet
  · rw [if_pos h]
    simp [List.filter, h.1, h.2]
  · rw [if_neg h]
    have : (e.coupon_id == couponId && e.owner_wallet == ownerWallet) = false := by
      rw [Bool.and_eq_false_iff]
      by_cases h1 : e.coupon_id = couponId
      · right; simpa using fun h2 => h ⟨h1, h2⟩
      · left; simpa using h1
    simp [List.filter, this]

theorem signedSum_append (a b : List Event) :
    signedSum (a ++ b) = signedSum a + signedSum b := by
  simp [signedSum]

theorem signedSum_nil : signedSum [] = 0 := rfl

theorem signedSum_singleton (e : Event) : signedSum [e] = signedAmount e := by
  simp [signedSum]

/-- A key owned by no coupon has no events, given `eventsHaveCoupons`. -/
theorem getEventsForCoupon_eq_nil {st : Store} {couponId ownerWallet : String}
    (hec : eventsHaveCoupons st)
    (hfresh : ∀ x ∈ st.coupons, x.id ≠ couponId) :
    getEventsForCoupon st couponId ownerWallet = [] := by
  rw [getEventsForCoupon, List.filter_eq_nil_iff]
  intro e he
  intro hmatch
  rw [Bool.and_eq_true, beq_iff_eq, beq_iff_eq] at hmatch
  obtain ⟨x, hx, hid, _⟩ := hec e he
  exact hfresh x hx (hid.trans hmatch.1)

theorem idsUnique_ne_of_mem_pre {pre post : List Coupon} {c x : Coupon}
    (h : idsUnique (pre ++ c :: post)) (hx : x ∈ pre) : x.id ≠ c.id := by
  rw [idsUnique, List.pairwise_append] at h
  exact h.2.2 x hx c (List.mem_cons_self c post)

theorem idsUnique_ne_of_mem_post {pre post : List Coupon} {c x : Coupon}
    (h : idsUnique (pre ++ c :: post)) (hx : x ∈ post) : x.id ≠ c.id := by
  rw [idsUnique, List.pairwise_append, List.pairwise_cons] at h
  exact fun hid => h.2.1.1 x hx hid.symm

theorem idsUnique_replace {pre post : List Coupon} {c c' : Coupon}
    (h : idsUnique (pre ++ c :: post)) (hid : c'.id = c.id) :
    idsUnique (pre ++ c' :: post) := by
  rw [idsUnique, List.pairwise_append, List.pairwise_cons] at h ⊢
  refine ⟨h.1, ⟨fun b hb => hid ▸ h.2.1.1 b hb, h.2.1.2⟩, ?_⟩
  intro a ha b hb
  rcases List.mem_cons.mp hb with hbc | hbp
  · subst hbc; rw [hid]; exact h.2.2 a ha c (List.mem_cons_self c post)
  · exact h.2.2 a ha b (List.mem_cons_of_mem c hbp)

theorem idsUnique_snoc {l : List Coupon} {c : Coupon}
    (h : idsUnique l) (hfresh : ∀ x ∈ l, x.id ≠ c.id) :
    idsUnique (l ++ [c]) := by
  rw [idsUnique, List.pairwise_append]
  exact ⟨h, List.pairwise_singleton _ _, fun a ha b hb => by
    rw [List.mem_singleton.mp hb]; exact hfresh a ha⟩

/-- The two subtractive updaters (withdraw, pay) succeed exactly when the
balance suffices, and then subtract. -/
theorem subUpdater_ok {amount : ℚ} {c c' : Coupon}
    (h : (if amount > c.remaining_amount_sol
            then (Except.error "insufficient balance" : Except String Coupon)
            else .ok { c with remaining_amount_sol := c.remaining_amount_sol - amount })
          = .ok c') :
    ¬amount > c.remaining_amount_sol ∧
      c' = { c with remaining_amount_sol := c.remaining_amount_sol - amount } := by
  split at h
  · simp at h
  · rename_i hg
    cases h
    exact ⟨hg, rfl⟩

/-! ## Invariant preservation -/

/-- Replacing the unique `(id, owner)`-matching coupon by one with the
same key and a balance shifted by `d`, while appending one event of that
key with signed amount `d`, preserves the ledger invariant.  This is the
common success branch of deposit, withdraw and pay. -/
theorem Inv_update_addEvent
    {st : Store} {couponId ownerWallet : String}
    {pre post : List Coupon} {c c' : Coupon} {ev : Event} {d : ℚ}
    (hInv : Inv st)
    (hl : st.coupons = pre ++ c :: post)
    (hck : c.id = couponId ∧ c.owner_wallet = ownerWallet)
    (hck' : c'.id = c.id ∧ c'.owner_wallet = c.owner_wallet)
    (hrem : c'.remaining_amount_sol = c.remaining_amount_sol + d)
    (hev : ev.coupon_id = couponId ∧ ev.owner_wallet = ownerWallet)
    (hsigned : signedAmount ev = d) :
    Inv (addEvent { st with coupons := pre ++ c' :: post } ev) := by
  obtain ⟨hU, hE, hB⟩ := hInv
  rw [hl] at hU
  have hcmem : c ∈ st.coupons := by
    rw [hl]; exact List.mem_append_right _ (List.mem_cons_self c post)
  refine ⟨?_, ?_, ?_⟩
  · exact idsUnique_replace hU hck'.1
  · intro e he
    simp only [addEvent] at he
    rcases List.mem_append.mp he with hold | hnew
    · obtain ⟨x, hx, hxk⟩ := hE e hold
      rw [hl] at hx
      rcases List.mem_append.mp hx with hxpre | hxc
      · exact ⟨x, List.mem_append_left _ hxpre, hxk⟩
      · rcases List.mem_cons.mp hxc with hxc' | hxpost
        · subst hxc'
          exact ⟨c', List.mem_append_right _ (List.mem_cons_self _ _),
            by rw [hck'.1, hck'.2]; exact hxk⟩
        · exact ⟨x, List.mem_append_right _ (List.mem_cons_of_mem _ hxpost), hxk⟩
    · rw [List.mem_singleton.mp hnew]
      refine ⟨c', List.mem_append_right _ (List.mem_cons_self _ _), ?_, ?_⟩
      · rw [hck'.1, hck.1, hev.1]
      · rw [hck'.2, hck.2, hev.2]
  · intro x hx
    rw [getEventsForCoupon_addEvent, getEventsForCoupon_coupons_irrel]
    rcases List.mem_append.mp hx with hxpre | hxc
    · have hxmem : x ∈ st.coupons := by rw [hl]; exact List.mem_append_left _ hxpre
      have hne : x.id ≠ c.id := idsUnique_ne_of_mem_pre hU hxpre
      rw [if_neg, List.append_nil]
      · exact hB x hxmem
      · intro hcontra
        apply hne
        rw [← hcontra.1, hev.1, hck.1]
    · rcases List.mem_cons.mp hxc with hxc' | hxpost
      · subst hxc'
        rw [if_pos, signedSum_append, signedSum_singleton, hsigned]
        · rw [hrem, hck'.1, hck'.2, ← hB c hcmem]
        · exact ⟨by rw [hev.1, hck'.1, hck.1], by rw [hev.2, hck'.2, hck.2]⟩
      · have hxmem : x ∈ st.coupons := by
          rw [hl]; exact List.mem_append_right _ (List.mem_cons_of_mem _ hxpost)
        have hne : x.id ≠ c.id := idsUnique_ne_of_mem_post hU hxpost
        rw [if_neg, List.append_nil]
        · exact hB x hxmem
        · intro hcontra
          apply hne
          rw [← hcontra.1, hev.1, hck.1]

/-- Appending a fresh coupon whose balance equals its single create
event's signed amount preserves the ledger invariant.  This is the
success branch of create. -/
theorem Inv_create_addEvent
    {st : Store} {coupon : Coupon} {ev : Event}
    (hInv : Inv st)
    (hfresh : ∀ x ∈ st.coupons, x.id ≠ coupon.id)
    (hev : ev.coupon_id = coupon.id ∧ ev.owner_wallet = coupon.owner_wallet)
    (hamt : signedAmount ev = coupon.remaining_amount_sol) :
    Inv (addEvent (createCoupon st coupon) ev) := by
  obtain ⟨hU, hE, hB⟩ := hInv
  refine ⟨?_, ?_, ?_⟩
  · exact idsUnique_snoc hU hfresh
  · intro e he
    simp only [addEvent, createCoupon] at he
    rcases List.mem_append.mp he with hold | hnew
    · obtain ⟨x, hx, hxk⟩ := hE e hold
      exact ⟨x, List.mem_append_left _ hx, hxk⟩
    · rw [List.mem_singleton.mp hnew]
      exact ⟨coupon, List.mem_append_right _ (List.mem_singleton_self _),
        hev.1.symm, hev.2.symm⟩
  · intro x hx
    simp only [createCoupon] at hx ⊢
    rw [getEventsForCoupon_addEvent, getEventsForCoupon_coupons_irrel]
    rcases List.mem_append.mp hx with hxold | hxnew
    · rw [if_neg, List.append_nil]
      · exact hB x hxold
      · intro hcontra
        exact hfresh x hxold (by rw [← hcontra.1, hev.1])
    · rw [List.mem_singleton.mp hxnew]
      rw [if_pos ⟨hev.1, hev.2⟩, getEventsForCoupon_eq_nil hE hfresh,
        List.nil_append, signedSum_singleton, hamt]

theorem updateCouponList_cons_no_match {couponId ownerWallet : String}
    {f : Coupon → Except String Coupon} {a : Coupon} {l : List Coupon}
    (ha : couponKeyMatch couponId ownerWallet a = false) :
    updateCouponList couponId ownerWallet f (a :: l)
      = match updateCouponList couponId ownerWallet f l with
        | none => none
        | some (.error msg) => some (.error msg)
        | some (.ok (c', l')) => some (.ok (c', a :: l')) := by
  rw [updateCouponList, if_neg]
  simp [ha]

theorem updateCouponList_cons_match {couponId ownerWallet : String}
    {f : Coupon → Except String Coupon} {c : Coupon} {rest : List Coupon} {c' : Coupon}
    (hc : couponKeyMatch couponId ownerWallet c = true) (hf : f c = .ok c') :
    updateCouponList couponId ownerWallet f (c :: rest) = some (.ok (c', c' :: rest)) := by
  rw [updateCouponList, if_pos hc, hf]

theorem updateCouponList_append_no_match {couponId ownerWallet : String}
    {f : Coupon → Except String Coupon} :
    ∀ {pre : List Coupon} {rest : List Coupon} {c' : Coupon} {rest' : List Coupon},
      (∀ x ∈ pre, couponKeyMatch couponId ownerWallet x = false) →
      updateCouponList couponId ownerWallet f rest = some (.ok (c', rest')) →
      updateCouponList couponId ownerWallet f (pre ++ rest) = some (.ok (c', pre ++ rest')) := by
  intro pre
  induction pre with
  | nil => intro rest c' rest' _ h; simpa using h
  | cons a l ih =>
    intro rest c' rest' hpre h
    rw [List.cons_append,
      updateCouponList_cons_no_match (hpre a (List.mem_cons_self a l)),
      ih (fun x hx => hpre x (List.mem_cons_of_mem a hx)) h]
    rfl

theorem find?_append_no_match {p : Coupon → Bool} :
    ∀ {pre rest : List Coupon}, (∀ x ∈ pre, p x = false) →
      (pre ++ rest).find? p = rest.find? p := by
  intro pre
  induction pre with
  | nil => intro rest _; rfl
  | cons a l ih =>
    intro rest hpre
    rw [List.cons_append, List.find?_cons_of_neg, ih (fun x hx => hpre x (List.mem_cons_of_mem a hx))]
    simp [hpre a (List.mem_cons_self a l)]

theorem updateCouponList_none_of_find?_none {couponId ownerWallet : String}
    {f : Coupon → Except String Coupon} :
    ∀ {l : List Coupon}, l.find? (couponKeyMatch couponId ownerWallet) = none →
      updateCouponList couponId ownerWallet f l = none := by
  intro l
  induction l with
  | nil => intro _; rfl
  | cons a rest ih =>
    intro h
    by_cases ha : couponKeyMatch couponId ownerWallet a = true
    · rw [List.find?_cons_of_pos _ ha] at h; cases h
    · rw [List.find?_cons_of_neg _ ha] at h
      rw [updateCouponList, if_neg ha, ih h]

theorem mem_replace {pre post : List Coupon} {c' x : Coupon}
    (hx : x ∈ pre ++ c' :: post) : x ∈ pre ∨ x = c' ∨ x ∈ post := by
  rcases List.mem_append.mp hx with h | h
  · exact .inl h
  · rcases List.mem_cons.mp h with h | h
    · exact .inr (.inl h)
    · exact .inr (.inr h)

/-- One request preserves the ledger invariant, provided a create's
generated id is fresh. -/
theorem Inv_execOp {st : Store} {op : Op} (hInv : Inv st)
    (hf : opFresh st op = true) : Inv (execOp st op).2 := by
  cases op with
  | create wallet label amount_sol expiry genId createdAt =>
    simp only [opFresh, List.all_eq_true, bne_iff_ne, ne_eq] at hf
    simp only [execOp, postCoupons]
    split
    · exact hInv
    split
    · exact hInv
    split
    · exact hInv
    rename_i amount hamt
    exact Inv_create_addEvent hInv (fun x hx => hf x hx) ⟨rfl, rfl⟩ rfl
  | deposit couponId wallet amount_sol createdAt =>
    simp only [execOp, postDeposit]
    split
    · exact hInv
    split
    · exact hInv
    rename_i amount hamt
    split
    · exact hInv
    · exact hInv
    rename_i updated st1 heq
    obtain ⟨pre, c, post, hl, hst1, hpre, hc, hfc⟩ := updateCoupon_ok_spec heq
    rw [couponKeyMatch_iff] at hc
    simp only [Except.ok.injEq] at hfc
    subst hfc
    rw [hst1]
    exact Inv_update_addEvent hInv hl hc ⟨rfl, rfl⟩ rfl ⟨rfl, rfl⟩ rfl
  | withdraw couponId wallet amount_sol recipient createdAt =>
    simp only [execOp, postWithdraw]
    split
    · exact hInv
    split
    · exact hInv
    split
    · exact hInv
    rename_i amount hamt
    split
    · exact hInv
    · exact hInv
    rename_i updated st1 heq
    obtain ⟨pre, c, post, hl, hst1, hpre, hc, hfc⟩ := updateCoupon_ok_spec heq
    rw [couponKeyMatch_iff] at hc
    obtain ⟨hguard, hupd⟩ := subUpdater_ok hfc
    subst hupd
    rw [hst1]
    exact Inv_update_addEvent hInv hl hc ⟨rfl, rfl⟩ (sub_eq_add_neg _ _) ⟨rfl, rfl⟩ rfl
  | pay wallet couponId amount_sol merchant note createdAt =>
    simp only [execOp, postPay]
    split
    · exact hInv
    split
    · exact hInv
    split
    · exact hInv
    split
    · exact hInv
    rename_i amount hamt
    split
    · exact hInv
    · exact hInv
    rename_i updated st1 heq
    obtain ⟨pre, c, post, hl, hst1, hpre, hc, hfc⟩ := updateCoupon_ok_spec heq
    rw [couponKeyMatch_iff] at hc
    obtain ⟨hguard, hupd⟩ := subUpdater_ok hfc
    subst hupd
    rw [hst1]
    exact Inv_update_addEvent hInv hl hc ⟨rfl, rfl⟩ (sub_eq_add_neg _ _) ⟨rfl, rfl⟩ rfl

/-- A fresh-id request sequence preserves the ledger invariant. -/
theorem Inv_execOps : ∀ (ops : List Op) (st : Store),
    Inv st → freshIds st ops = true → Inv (execOps st ops) := by
  intro ops
  induction ops with
  | nil => intro st h _; exact h
  | cons op ops ih =>
    intro st h hf
    rw [freshIds, Bool.and_eq_true] at hf
    exact ih _ (Inv_execOp h hf.1) hf.2

theorem Inv_emptyStore : Inv emptyStore := by
  refine ⟨List.Pairwise.nil, ?_, ?_⟩
  · intro e he; cases he
  · intro c hc; cases hc

/-- One request preserves nonnegativity of every balance (no freshness
needed). -/
theorem nonneg_execOp {st : Store} {op : Op} (h : nonnegStore st) :
    nonnegStore (execOp st op).2 := by
  cases op with
  | create wallet label amount_sol expiry genId createdAt =>
    simp only [execOp, postCoupons]
    split
    · exact h
    split
    · exact h
    split
    · exact h
    rename_i amount hamt
    intro x hx
    simp only [addEvent, createCoupon] at hx
    rcases List.mem_append.mp hx with hxold | hxnew
    · exact h x hxold
    · rw [List.mem_singleton.mp hxnew]
      exact le_of_lt (parseAmountSol_pos hamt)
  | deposit couponId wallet amount_sol createdAt =>
    simp only [execOp, postDeposit]
    split
    · exact h
    split
    · exact h
    rename_i amount hamt
    split
    · exact h
    · exact h
    rename_i updated st1 heq
    obtain ⟨pre, c, post, hl, hst1, hpre, hc, hfc⟩ := updateCoupon_ok_spec heq
    simp only [Except.ok.injEq] at hfc
    subst hfc
    rw [hst1]
    intro x hx
    simp only [addEvent] at hx
    have hcmem : c ∈ st.coupons := by
      rw [hl]; exact List.mem_append_right _ (List.mem_cons_self c post)
    rcases mem_replace hx with hxpre | hxc | hxpost
    · exact h x (by rw [hl]; exact List.mem_append_left _ hxpre)
    · rw [hxc]
      have := h c hcmem
      have := parseAmountSol_pos hamt
      show 0 ≤ c.remaining_amount_sol + amount
      linarith
    · exact h x (by rw [hl]; exact List.mem_append_right _ (List.mem_cons_of_mem _ hxpost))
  | withdraw couponId wallet amount_sol recipient createdAt =>
    simp only [execOp, postWithdraw]
    split
    · exact h
    split
    · exact h
    split
    · exact h
    rename_i amount hamt
    split
    · exact h
    · exact h
    rename_i updated st1 heq
    obtain ⟨pre, c, post, hl, hst1, hpre, hc, hfc⟩ := updateCoupon_ok_spec heq
    obtain ⟨hguard, hupd⟩ := subUpdater_ok hfc
    subst hupd
    rw [hst1]
    intro x hx
    simp only [addEvent] at hx
    rcases mem_replace hx with hxpre | hxc | hxpost
    · exact h x (by rw [hl]; exact List.mem_append_left _ hxpre)
    · rw [hxc]
      show 0 ≤ c.remaining_amount_sol - amount
      linarith [le_of_not_gt hguard]
    · exact h x (by rw [hl]; exact List.mem_append_right _ (List.mem_cons_of_mem _ hxpost))
  | pay wallet couponId amount_sol merchant note createdAt =>
    simp only [execOp, postPay]
    split
    · exact h
    split
    · exact h
    split
    · exact h
    split
    · exact h
    rename_i amount hamt
    split
    · exact h
    · exact h
    rename_i updated st1 heq
    obtain ⟨pre, c, post, hl, hst1, hpre, hc, hfc⟩ := updateCoupon_ok_spec heq
    obtain ⟨hguard, hupd⟩ := subUpdater_ok hfc
    subst hupd
    rw [hst1]
    intro x hx
    simp only [addEvent] at hx
    rcases mem_replace hx with hxpre | hxc | hxpost
    · exact h x (by rw [hl]; exact List.mem_append_left _ hxpre)
    · rw [hxc]
      show 0 ≤ c.remaining_amount_sol - amount
      linarith [le_of_not_gt hguard]
    · exact h x (by rw [hl]; exact List.mem_append_right _ (List.mem_cons_of_mem _ hxpost))

/-- Any request sequence preserves nonnegativity of every balance. -/
theorem nonneg_execOps : ∀ (ops : List Op) (st : Store),
    nonnegStore st → nonnegStore (execOps st ops) := by
  intro ops
  induction ops with
  | nil => intro st h; exact h
  | cons op ops ih => intro st h; exact ih _ (nonneg_execOp h)

/-- Not-found `db.updateCoupon`: when `db.getCouponById` finds nothing,
`db.updateCoupon` returns `null` and saves nothing. -/
theorem updateCoupon_none_of_getCouponById_none {st : Store}
    {couponId ownerWallet : String} {f : Coupon → Except String Coupon}
    (h : getCouponById st couponId ownerWallet = none) :
    updateCoupon st couponId ownerWallet f = .ok none := by
  rw [updateCoupon, updateCouponList_none_of_find?_none h]

/-- Every request either answers an error or appends exactly one event,
of the request's own type; then a deposit, withdraw or pay answers 200
`{coupon, event}` where the coupon is exactly the value written into the
replaced slot of the collection and the event the appended one, while a
create answers 201 `{coupon}` — a body with no event — where the coupon
is the value appended to the collection. -/
theorem execOp_response_shape (st : Store) (op : Op) :
    (execOp st op).1.isError = true ∨
    (∃ e, (execOp st op).2.events = st.events ++ [e] ∧ e.type = op.eventType ∧
      (match op with
       | .create _ _ _ _ _ _ =>
           ∃ c, (execOp st op).2.coupons = st.coupons ++ [c] ∧
             (execOp st op).1 = .json 201 (.couponOnly c)
       | _ =>
           ∃ pre c c' post, st.coupons = pre ++ c :: post ∧
             (execOp st op).2.coupons = pre ++ c' :: post ∧
             (execOp st op).1 = .json 200 (.couponEvent c' e))) := by
  cases op with
  | create wallet label amount_sol expiry genId createdAt =>
    simp only [execOp, postCoupons]
    split
    · exact Or.inl rfl
    split
    · exact Or.inl rfl
    split
    · exact Or.inl rfl
    exact Or.inr ⟨_, rfl, rfl, _, rfl, rfl⟩
  | deposit couponId wallet amount_sol createdAt =>
    simp only [execOp, postDeposit]
    split
    · exact Or.inl rfl
    split
    · exact Or.inl rfl
    rename_i amount hamt
    split
    · exact Or.inl rfl
    · exact Or.inl rfl
    rename_i updated st1 heq
    obtain ⟨pre, c, post, hl, hst1, hpre, hc, hfc⟩ := updateCoupon_ok_spec heq
    exact Or.inr ⟨_, by rw [hst1]; rfl, rfl,
      pre, c, updated, post, hl, by rw [hst1]; rfl, rfl⟩
  | withdraw couponId wallet amount_sol recipient createdAt =>
    simp only [execOp, postWithdraw]
    split
    · exact Or.inl rfl
    split
    · exact Or.inl rfl
    split
    · exact Or.inl rfl
    rename_i amount hamt
    split
    · exact Or.inl rfl
    · exact Or.inl rfl
    rename_i updated st1 heq
    obtain ⟨pre, c, post, hl, hst1, hpre, hc, hfc⟩ := updateCoupon_ok_spec heq
    exact Or.inr ⟨_, by rw [hst1]; rfl, rfl,
      pre, c, updated, post, hl, by rw [hst1]; rfl, rfl⟩
  | pay wallet couponId amount_sol merchant note createdAt =>
    simp only [execOp, postPay]
    split
    · exact Or.inl rfl
    split
    · exact Or.inl rfl
    split
    · exact Or.inl rfl
    split
    · exact Or.inl rfl
    rename_i amount hamt
    split
    · exact Or.inl rfl
    · exact Or.inl rfl
    rename_i updated st1 heq
    obtain ⟨pre, c, post, hl, hst1, hpre, hc, hfc⟩ := updateCoupon_ok_spec heq
    exact Or.inr ⟨_, by rw [hst1]; rfl, rfl,
      pre, c, updated, post, hl, by rw [hst1]; rfl, rfl⟩

/-- Every request either succeeds or leaves the store untouched. -/
theorem execOp_error_unchanged (st : Store) (op : Op) :
    (execOp st op).1.isError = false ∨ (execOp st op).2 = st := by
  cases op with
  | create wallet label amount_sol expiry genId createdAt =>
    simp only [execOp, postCoupons]
    split
    · exact Or.inr rfl
    split
    · exact Or.inr rfl
    split
    · exact Or.inr rfl
    exact Or.inl rfl
  | deposit couponId wallet amount_sol createdAt =>
    simp only [execOp, postDeposit]
    split
    · exact Or.inr rfl
    split
    · exact Or.inr rfl
    split
    · exact Or.inr rfl
    · exact Or.inr rfl
    exact Or.inl rfl
  | withdraw couponId wallet amount_sol recipient createdAt =>
    simp only [execOp, postWithdraw]
    split
    · exact Or.inr rfl
    split
    · exact Or.inr rfl
    split
    · exact Or.inr rfl
    split
    · exact Or.inr rfl
    · exact Or.inr rfl
    exact Or.inl rfl
  | pay wallet couponId amount_sol merchant note createdAt =>
    simp only [execOp, postPay]
    split
    · exact Or.inr rfl
    split
    · exact Or.inr rfl
    split
    · exact Or.inr rfl
    split
    · exact Or.inr rfl
    split
    · exact Or.inr rfl
    · exact Or.inr rfl
    exact Or.inl rfl

/-! ## The claims -/

/-- C1 (counterexample): the invariant as stated is already false right
after a create: the sole coupon of `oneCouponStore` has
`remaining_amount = 5` but `initial_amount + signed sum of events`
`= 5 + 5 = 10`, because the create event's amount duplicates the initial
amount.  Moreover even `remaining_amount = signed sum of events` fails
without an id-freshness proviso: after two creates under a colliding
generated id, the two coupons (balances 5 and 3) share one event set of
signed sum 8. -/
theorem c1_counterexample :
    (oneCouponStore.coupons.map (fun c =>
      c.remaining_amount_sol ==
        c.initial_amount_sol +
          signedSum (getEventsForCoupon oneCouponStore c.id c.owner_wallet)))
      = [false] ∧
    (dupIdStore.coupons.map (fun c =>
      (c.remaining_amount_sol,
        signedSum (getEventsForCoupon dupIdStore c.id c.owner_wallet))))
      = [(5, 8), (3, 8)] := by with_unfolding_all decide

/-- C1 (amended): after any request sequence from the empty store whose
creates all draw generated ids not already in the coupon collection,
every coupon's `remaining_amount` equals the signed sum of all its
events' amounts, with create and deposit counting positive and withdraw
and pay counting negative (the initial amount is already accounted for by
the create event, so it is not added again). -/
theorem c1_balance_invariant (ops : List Op)
    (hfresh : freshIds emptyStore ops = true) :
    ∀ c ∈ (execOps emptyStore ops).coupons,
      c.remaining_amount_sol =
        signedSum (getEventsForCoupon (execOps emptyStore ops) c.id c.owner_wallet) :=
  (Inv_execOps ops emptyStore Inv_emptyStore hfresh).2.2

/-- C1 (witness): the balance equation holds for the coupon produced by
the create-deposit-withdraw scenario. -/
theorem c1_balance_invariant_witness :
    scenarioCoupon.remaining_amount_sol =
      signedSum (getEventsForCoupon (execOps emptyStore scenarioOps)
        scenarioCoupon.id scenarioCoupon.owner_wallet) :=
  c1_balance_invariant scenarioOps (by decide) scenarioCoupon
    (by with_unfolding_all decide)

/-- C3 (code bug): withdrawing 7 from a coupon holding 5 (and likewise
paying 7) makes the updater throw `"insufficient balance"`;
`db.updateCoupon` does not catch it, so the handler's
`updated instanceof Error` check (withdraw) is dead code, the 400 branch
never runs, and the exception escapes to Express's default 500 handler —
not the 4xx with a machine-readable code that the spec requires.  The
store is left unchanged. -/
theorem c3_insufficient_balance_uncaught :
    postWithdraw oneCouponStore "CPN-AAAA-0001" "W1" (some 7) "R" "t2"
      = (Response.uncaught "insufficient balance", oneCouponStore) ∧
    postPay oneCouponStore "W1" "CPN-AAAA-0001" (some 7) "M" none "t2"
      = (Response.uncaught "insufficient balance", oneCouponStore) := by decide

/-- C4 (counterexample): a successful create (status 201) answers with
`{ coupon }` only — its response body carries no event, although a create
event was appended to the store. -/
theorem c4_counterexample :
    (postCoupons emptyStore "W1" "gift" (some 5) none "CPN-AAAA-0001" "t1").1.isError
      = false ∧
    (postCoupons emptyStore "W1" "gift" (some 5) none "CPN-AAAA-0001" "t1").1.bodyHasEvent
      = false := by decide

/-- C7: from the empty store, create with amount 5, deposit 3, then
withdraw 4 off-chain to recipient R leaves the coupon with
`remaining_amount = 4` and exactly three events for it, in order:
create 5 (to the owner), deposit 3 (to the owner), withdraw 4 (to R). -/
theorem c7_scenario :
    (execOps emptyStore scenarioOps).coupons.map
        (fun c => (c.id, c.remaining_amount_sol)) = [("CPN-AAAA-0001", 4)] ∧
    (getEventsForCoupon (execOps emptyStore scenarioOps) "CPN-AAAA-0001" "W1").map
        (fun e => (e.type, e.amount_sol, e.to_address))
      = [(.create, 5, "W1"), (.deposit, 3, "W1"), (.withdraw, 4, "R")] := by
  with_unfolding_all decide

/-- C2: for every withdraw-onchain request that reaches the Settlement
Gateway (validations passed, balance sufficient) and during which the
gateway times out mid-call, the store — coupon balances and the event
log alike — is unchanged and the operation surfaces
`SettlementAmbiguous`.  The route and reconciler are modelled from the
spec (§4.3): they live in the settlement-enabled server variant, which
is not under `src/`. -/
theorem c2_timeout_settlement_ambiguous (st : Store)
    (couponId wallet : String) (amount_sol : Option ℚ)
    (recipient createdAt : String) (a : ℚ) (c : Coupon)
    (hw : jsTrim wallet ≠ "")
    (hr : jsTrim recipient ≠ "")
    (ha : parseAmountSol amount_sol = some a)
    (hc : getCouponById st couponId (jsTrim wallet) = some c)
    (hbal : ¬a > c.remaining_amount_sol) :
    postWithdrawOnchain st couponId wallet amount_sol recipient .timeout createdAt
      = (.settlementAmbiguous, st) := by
  simp [postWithdrawOnchain, hw, hr, ha, hc, hbal]

/-- C2 (witness): the spec's §8 scenario — withdraw-onchain of 2 from a
coupon holding 5 with a mid-call timeout. -/
theorem c2_timeout_witness :
    postWithdrawOnchain oneCouponStore "CPN-AAAA-0001" "W1" (some 2) "R"
      .timeout "t2" = (.settlementAmbiguous, oneCouponStore) :=
  c2_timeout_settlement_ambiguous oneCouponStore "CPN-AAAA-0001" "W1" (some 2)
    "R" "t2" 2 oneCoupon (by decide) (by decide) (by decide) (by decide) (by decide)

/-- C4 (amended): every successful mutating request appends exactly one
event of its own type; a successful deposit, withdraw or pay responds 200
with both the authoritative updated coupon — the very value written into
the replaced slot of the coupon collection — and that newly appended
event; a successful create responds 201 with only the newly stored
coupon, its body carrying no event. -/
theorem c4_success_response (st : Store) (op : Op)
    (hok : (execOp st op).1.isError = false) :
    ∃ e, (execOp st op).2.events = st.events ++ [e] ∧ e.type = op.eventType ∧
      (match op with
       | .create _ _ _ _ _ _ =>
           ∃ c, (execOp st op).2.coupons = st.coupons ++ [c] ∧
             (execOp st op).1 = .json 201 (.couponOnly c)
       | _ =>
           ∃ pre c c' post, st.coupons = pre ++ c :: post ∧
             (execOp st op).2.coupons = pre ++ c' :: post ∧
             (execOp st op).1 = .json 200 (.couponEvent c' e)) := by
  have h := (execOp_response_shape st op).resolve_left (by rw [hok]; simp)
  clear hok
  cases op <;> exact h

/-- C4 (witness): a concrete deposit of 2 into the one-coupon store, and
a concrete create, each discharging the success hypothesis. -/
theorem c4_success_response_witness :
    ((execOp oneCouponStore (.deposit "CPN-AAAA-0001" "W1" (some 2) "t2")).1.isError
        = false ∧
     ∃ e, (execOp oneCouponStore (.deposit "CPN-AAAA-0001" "W1" (some 2) "t2")).2.events
          = oneCouponStore.events ++ [e] ∧
        e.type = (Op.deposit "CPN-AAAA-0001" "W1" (some 2) "t2").eventType ∧
        ∃ pre c c' post, oneCouponStore.coupons = pre ++ c :: post ∧
          (execOp oneCouponStore (.deposit "CPN-AAAA-0001" "W1" (some 2) "t2")).2.coupons
            = pre ++ c' :: post ∧
          (execOp oneCouponStore (.deposit "CPN-AAAA-0001" "W1" (some 2) "t2")).1
            = .json 200 (.couponEvent c' e)) ∧
    ((execOp emptyStore (.create "W1" "gift" (some 5) none "CPN-AAAA-0001" "t1")).1.isError
        = false ∧
     ∃ e, (execOp emptyStore (.create "W1" "gift" (some 5) none "CPN-AAAA-0001" "t1")).2.events
          = emptyStore.events ++ [e] ∧
        e.type = (Op.create "W1" "gift" (some 5) none "CPN-AAAA-0001" "t1").eventType ∧
        ∃ c, (execOp emptyStore (.create "W1" "gift" (some 5) none "CPN-AAAA-0001" "t1")).2.coupons
            = emptyStore.coupons ++ [c] ∧
          (execOp emptyStore (.create "W1" "gift" (some 5) none "CPN-AAAA-0001" "t1")).1
            = .json 201 (.couponOnly c)) :=
  ⟨⟨by decide, c4_success_response oneCouponStore _ (by decide)⟩,
   ⟨by decide, c4_success_response emptyStore _ (by decide)⟩⟩

/-- C5: for every request sequence run from the empty store, every coupon
balance in the resulting committed state is nonnegative; every committed
state of a run is `execOps emptyStore ops` for a prefix `ops`, so no
sequence of withdraw/pay operations can drive a balance below 0. -/
theorem c5_no_negative_balance (ops : List Op) :
    ∀ c ∈ (execOps emptyStore ops).coupons, 0 ≤ c.remaining_amount_sol :=
  nonneg_execOps ops emptyStore (fun _ hc => by cases hc)

/-- C5 (witness): the coupon left by the create-deposit-withdraw scenario
has a nonnegative balance. -/
theorem c5_no_negative_balance_witness : 0 ≤ scenarioCoupon.remaining_amount_sol :=
  c5_no_negative_balance scenarioOps scenarioCoupon (by with_unfolding_all decide)

/-- C6: every request that answers an error — validation 400, not-found
404, or the uncaught insufficient-balance exception — leaves the store
(both the Coupons and the Events collections) exactly as it was. -/
theorem c6_failed_request_no_mutation (st : Store) (op : Op)
    (herr : (execOp st op).1.isError = true) :
    (execOp st op).2 = st :=
  (execOp_error_unchanged st op).resolve_left (by rw [herr]; simp)

/-- C6 (witness): a deposit addressing a coupon id absent from the store
answers 404 and leaves the store unchanged. -/
theorem c6_failed_request_no_mutation_witness :
    (execOp oneCouponStore (.deposit "CPN-NOPE-0000" "W1" (some 1) "t2")).1.isError
        = true ∧
    (execOp oneCouponStore (.deposit "CPN-NOPE-0000" "W1" (some 1) "t2")).2
        = oneCouponStore :=
  ⟨by decide, c6_failed_request_no_mutation oneCouponStore _ (by decide)⟩

/-- C8 (counterexample): ids are not unique across wallets (they are
random and unchecked), so W2 can own a coupon with the same id as W1's;
the history lookup with W2 then answers 200 with W2's own coupon, not
the NotFound the claim promises for every (coupon of W1, W2 ≠ W1)
pair. -/
theorem c8_counterexample :
    (crossOwnerStore.coupons.map (fun c => (c.id, c.owner_wallet)))
      = [("CPN-AAAA-0001", "W1"), ("CPN-AAAA-0001", "W2")] ∧
    getHistory crossOwnerStore "CPN-AAAA-0001" "W2"
      = .json 200 (.history crossOwnerCouponW2 [crossOwnerEventW2]) := by decide

/-- C8 (amended): provided W2 does not itself own a coupon with the
looked-up id, a history lookup with W2 answers exactly the same
404 NotFound response as for an id owned by nobody — revealing none of
the owner's coupon or event data — and every mutation addressing that
coupon id with W2 (deposit, withdraw, pay) answers that same 404 and
leaves the store unchanged. -/
theorem c8_ownership_isolation (st : Store)
    (couponId otherId wallet recipient merchant : String)
    (amount_sol : Option ℚ) (a : ℚ) (note : Option String) (createdAt : String)
    (hw : jsTrim wallet ≠ "")
    (hr : jsTrim recipient ≠ "")
    (hm : jsTrim merchant ≠ "")
    (hcid : jsTrim couponId ≠ "")
    (ha : parseAmountSol amount_sol = some a)
    (h1 : getCouponById st couponId (jsTrim wallet) = none)
    (h1p : getCouponById st (jsTrim couponId) (jsTrim wallet) = none)
    (h2 : getCouponById st otherId (jsTrim wallet) = none) :
    getHistory st couponId wallet
        = .json 404 (.errorMsg "coupon not found for this wallet") ∧
    getHistory st couponId wallet = getHistory st otherId wallet ∧
    postDeposit st couponId wallet amount_sol createdAt
        = (.json 404 (.errorMsg "coupon not found for this wallet"), st) ∧
    postWithdraw st couponId wallet amount_sol recipient createdAt
        = (.json 404 (.errorMsg "coupon not found for this wallet"), st) ∧
    postPay st wallet couponId amount_sol merchant note createdAt
        = (.json 404 (.errorMsg "coupon not found for this wallet"), st) := by
  refine ⟨?_, ?_, ?_, ?_, ?_⟩
  · simp [getHistory, hw, h1]
  · simp [getHistory, hw, h1, h2]
  · simp [postDeposit, hw, ha, updateCoupon_none_of_getCouponById_none h1]
  · simp [postWithdraw, hw, hr, ha, updateCoupon_none_of_getCouponById_none h1]
  · simp [postPay, hw, hm, hcid, ha, updateCoupon_none_of_getCouponById_none h1p]

/-- C8 (witness): W2 looking up — and depositing into, withdrawing from,
and paying from — W1's coupon id in the one-coupon store. -/
theorem c8_ownership_isolation_witness :
    getHistory oneCouponStore "CPN-AAAA-0001" "W2"
        = .json 404 (.errorMsg "coupon not found for this wallet") ∧
    getHistory oneCouponStore "CPN-AAAA-0001" "W2"
        = getHistory oneCouponStore "CPN-ZZZZ-9999" "W2" ∧
    postDeposit oneCouponStore "CPN-AAAA-0001" "W2" (some 1) "t2"
        = (.json 404 (.errorMsg "coupon not found for this wallet"), oneCouponStore) ∧
    postWithdraw oneCouponStore "CPN-AAAA-0001" "W2" (some 1) "R" "t2"
        = (.json 404 (.errorMsg "coupon not found for this wallet"), oneCouponStore) ∧
    postPay oneCouponStore "W2" "CPN-AAAA-0001" (some 1) "M" none "t2"
        = (.json 404 (.errorMsg "coupon not found for this wallet"), oneCouponStore) :=
  c8_ownership_isolation oneCouponStore "CPN-AAAA-0001" "CPN-ZZZZ-9999" "W2" "R" "M"
    (some 1) 1 none "t2" (by decide) (by decide) (by decide) (by decide)
    (by decide) (by decide) (by decide) (by decide)

/-- C9 (counterexample): `createCoupon` pushes the generated id with no
uniqueness check, so when `generateCouponId`'s 4 random bytes repeat, a
second create succeeds and leaves two coupons with the same id in the
collection. -/
theorem c9_counterexample :
    (execOp (execOps emptyStore [.create "W1" "a" (some 5) none "CPN-AAAA-0001" "t1"])
        (.create "W1" "b" (some 3) none "CPN-AAAA-0001" "t2")).1.isError = false ∧
    dupIdStore.coupons.map (fun c => c.id)
      = ["CPN-AAAA-0001", "CPN-AAAA-0001"] := by decide

/-- C9 (amended): id uniqueness is only as good as the random generator:
for every run from the empty store in which each create's generated id
differs from every id already stored, no two coupons in the collection
share an id. -/
theorem c9_unique_ids (ops : List Op)
    (hfresh : freshIds emptyStore ops = true) :
    idsUnique (execOps emptyStore ops).coupons :=
  (Inv_execOps ops emptyStore Inv_emptyStore hfresh).1

/-- C9 (witness): the create-deposit-withdraw scenario draws a fresh id
and ends with pairwise distinct coupon ids. -/
theorem c9_unique_ids_witness :
    freshIds emptyStore scenarioOps = true ∧
    idsUnique (execOps emptyStore scenarioOps).coupons :=
  ⟨by decide, c9_unique_ids scenarioOps (by decide)⟩

/-- C10: when the collection holds two coupons with the same
`(id, owner_wallet)` key, `getCouponById` returns the first-stored match,
`updateCoupon` rewrites only that first match — the later duplicate and
its balance are untouched — and `getCouponsByOwner` returns both
duplicates. -/
theorem c10_first_match_semantics (st : Store) (couponId ownerWallet : String)
    (pre mid post : List Coupon) (c1 c2 c1' : Coupon)
    (f : Coupon → Except String Coupon)
    (hl : st.coupons = pre ++ c1 :: (mid ++ c2 :: post))
    (hpre : ∀ x ∈ pre, couponKeyMatch couponId ownerWallet x = false)
    (h1 : couponKeyMatch couponId ownerWallet c1 = true)
    (h2 : couponKeyMatch couponId ownerWallet c2 = true)
    (hf : f c1 = .ok c1') :
    getCouponById st couponId ownerWallet = some c1 ∧
    updateCoupon st couponId ownerWallet f
      = .ok (some (c1', { st with coupons := pre ++ c1' :: (mid ++ c2 :: post) })) ∧
    c1 ∈ getCouponsByOwner st ownerWallet ∧
    c2 ∈ getCouponsByOwner st ownerWallet := by
  have hup : updateCouponList couponId ownerWallet f (pre ++ c1 :: (mid ++ c2 :: post))
      = some (.ok (c1', pre ++ c1' :: (mid ++ c2 :: post))) :=
    updateCouponList_append_no_match hpre (updateCouponList_cons_match h1 hf)
  refine ⟨?_, ?_, ?_, ?_⟩
  · rw [getCouponById, hl, find?_append_no_match hpre, List.find?_cons_of_pos _ h1]
  · rw [updateCoupon, hl, hup]
  · rw [getCouponsByOwner, List.mem_filter]
    refine ⟨by rw [hl]; exact List.mem_append_right _ (List.mem_cons_self _ _), ?_⟩
    simp [(couponKeyMatch_iff.mp h1).2]
  · rw [getCouponsByOwner, List.mem_filter]
    refine ⟨by
      rw [hl]
      exact List.mem_append_right _ (List.mem_cons_of_mem _
        (List.mem_append_right _ (List.mem_cons_self _ _))), ?_⟩
    simp [(couponKeyMatch_iff.mp h2).2]

/-- C10 (witness): a two-coupon store whose entries share a key; the
update bumps only the first entry, the second keeps its balance 3. -/
theorem c10_first_match_semantics_witness :
    getCouponById dupKeyStore "CPN-DUP-0001" "W9" = some dupKeyCouponA ∧
    updateCoupon dupKeyStore "CPN-DUP-0001" "W9"
        (fun c => .ok { c with remaining_amount_sol := 1 })
      = .ok (some ({ dupKeyCouponA with remaining_amount_sol := 1 },
          { dupKeyStore with coupons :=
              [] ++ { dupKeyCouponA with remaining_amount_sol := 1 }
                :: ([] ++ dupKeyCouponB :: []) })) ∧
    dupKeyCouponA ∈ getCouponsByOwner dupKeyStore "W9" ∧
    dupKeyCouponB ∈ getCouponsByOwner dupKeyStore "W9" :=
  c10_first_match_semantics dupKeyStore "CPN-DUP-0001" "W9" [] [] []
    dupKeyCouponA dupKeyCouponB { dupKeyCouponA with remaining_amount_sol := 1 }
    (fun c => .ok { c with remaining_amount_sol := 1 })
    rfl (by simp) (by decide) (by decide) rfl

end Zknon
